import Mathlib

/-!
Verification of the viam-hough-transform circle-detection pipeline.

The Go sources are shallowly embedded here:
* geometry (`Point`, `Rectangle`, `Circle`) mirrors `image.Point`,
  `image.Rectangle` and the package's `Circle` struct;
* `HoughConfig` with `HoughConfig.Validate` and `HoughConfig.setDefaults`
  mirrors `hough/detection.go`;
* `vesselCircles` embeds the post-Hough part of the pipeline.  The gocv
  calls (colour conversion, median blur, `HoughCirclesWithParams`) are
  external library code, so the raw candidate list the Hough engine
  produces on the prepared buffer is an explicit parameter
  (`List RawCircle`, the integer triples obtained from the `int(...)`
  casts on the float vector entries), and the outcome of the two
  diagnostic `gocv.IMWrite` calls is an explicit `DiagnosticFS` record;
* `formatDetections`, `Detections`, `getImage` and
  `DetectionsFromCamera` embed the service layer;
* a small heap model (`Heap`, `cropImageH`, `imageToMatH`) embeds the
  buffer mutations of `cropImage` and `imageToMat` explicitly, to state
  that the caller's image buffer is never written.
-/

namespace Hough

/-- Mirrors Go `image.Point`. -/
structure Point where
  x : Int
  y : Int
deriving DecidableEq, Repr

/-- Mirrors Go `image.Rectangle` (min and max corners). -/
structure Rectangle where
  min : Point
  max : Point
deriving DecidableEq, Repr

/-- Mirrors the package's `Circle` struct: a centre point and a radius. -/
structure Circle where
  center : Point
  radius : Int
deriving DecidableEq, Repr

/-- One raw candidate produced by `gocv.HoughCirclesWithParams`, after the
`int(circle[0])`, `int(circle[1])`, `int(circle[2])` casts in the loop of
`vesselCircles`. -/
structure RawCircle where
  x : Int
  y : Int
  r : Int
deriving DecidableEq, Repr

/-- Mirrors `circleRThreshold = 18`: circles with radii smaller than this
will be ignored. -/
def circleRThreshold : Int := 18

/-- Mirrors `HoughConfig` from `hough/detection.go`.  The `float64` fields
are modelled as rationals, the `int` fields as integers. -/
structure HoughConfig where
  cameraName : String
  dp : Rat
  minDist : Rat
  param1 : Rat
  param2 : Rat
  minRadius : Int
  maxRadius : Int
  crop : Option Rectangle
  skipBlur : Bool

/-- Mirrors `HoughConfig.Validate`: the camera name must be nonempty and
each numeric parameter positive; on success it returns the camera name as
the dependency list.  (The source contains no `minRadius > maxRadius`
check.) -/
def HoughConfig.Validate (cfg : HoughConfig) (path : String) : Except String (List String) :=
  if cfg.cameraName = "" then
    .error ("expected \"camera_name\" attribute for object tracker " ++ path)
  else if cfg.dp ≤ 0 then .error "dp needs to be set (def 1)"
  else if cfg.minDist ≤ 0 then .error "min_dist needs to be set (def 8)"
  else if cfg.param1 ≤ 0 then .error "param1 needs to be set (def 60)"
  else if cfg.param2 ≤ 0 then .error "param2 needs to be set (def 25)"
  else if cfg.minRadius ≤ 0 then .error "min_radius needs to be set (def 35)"
  else if cfg.maxRadius ≤ 0 then .error "max_radius needs to be set (def 50)"
  else .ok [cfg.cameraName]

/-- Mirrors `HoughConfig.setDefaults`. -/
def HoughConfig.setDefaults (hc : HoughConfig) : HoughConfig :=
  { hc with dp := 1, minDist := 8, param1 := 60, param2 := 25, minRadius := 35, maxRadius := 50 }

/-- Outcome of the two diagnostic `gocv.IMWrite` calls in `vesselCircles`
(the file system is an external collaborator, so the success of each write
is an input of the embedding). -/
structure DiagnosticFS where
  blurWriteOk : Bool
  resultsWriteOk : Bool

/-- One iteration of the candidate loop in `vesselCircles`: drop the raw
candidate when its radius is below `circleRThreshold`, and when a crop
rectangle is configured add its min corner back onto the centre so the
circle is returned with respect to the original image. -/
def keepCircle (crop : Option Rectangle) (c : RawCircle) : Option Circle :=
  if c.r < circleRThreshold then none
  else
    match crop with
    | some cr => some ⟨⟨c.x + cr.min.x, c.y + cr.min.y⟩, c.r⟩
    | none => some ⟨⟨c.x, c.y⟩, c.r⟩

/-- The candidate loop of `vesselCircles` over the whole raw candidate
list. -/
def goodCirclesOf (raw : List RawCircle) (crop : Option Rectangle) : List Circle :=
  raw.filterMap (keepCircle crop)

/-- The comparator handed to `sort.Slice` in `vesselCircles`, as the
corresponding weak order: `a` precedes `b` when `a`'s radius is at least
`b`'s. -/
def circleGE (a b : Circle) : Prop := b.radius ≤ a.radius

instance : DecidableRel circleGE := fun a b =>
  inferInstanceAs (Decidable (b.radius ≤ a.radius))

instance : IsTotal Circle circleGE := ⟨fun a b => le_total b.radius a.radius⟩

instance : IsTrans Circle circleGE := ⟨fun _ _ _ hab hbc => le_trans hbc hab⟩

/-- Mirrors the `sort.Slice(goodCircles, ...)` call ordering the circles
by radius (descending).  `sort.Slice` guarantees only sortedness with
respect to the comparator (it is not stable); the embedding realises the
sort by insertion sort over `circleGE`. -/
def orderCircles (l : List Circle) : List Circle := List.insertionSort circleGE l

/-- Embeds `vesselCircles` from `hough/detection.go`.  The image
preparation and the Hough engine are external gocv code, represented by
the raw candidate list `raw`; everything after the engine call (diagnostic
writes, radius filter, crop offset, ordering) follows the source: if the
blur is not skipped, `outputBlur` is set and the blurred-image write
fails, the call errors out; the candidate loop is `goodCirclesOf`; if
`outputResults` names a file and the annotated-image write fails, the call
errors out; otherwise the filtered circles are returned ordered by
descending radius. -/
def vesselCircles (raw : List RawCircle) (hc : HoughConfig)
    (outputBlur : Bool) (outputResults : String) (fs : DiagnosticFS) :
    Except String (List Circle) :=
  if hc.skipBlur = false ∧ outputBlur = true ∧ fs.blurWriteOk = false then
    .error "failed to save the output image"
  else if outputResults ≠ "" ∧ fs.resultsWriteOk = false then
    .error "failed to save the output image"
  else
    .ok (orderCircles (goodCirclesOf raw hc.crop))

/-- Mirrors `objdet.Detection` as produced by `objdet.NewDetection(rect,
score, name)`: a bounding box, a confidence score and a label. -/
structure Detection where
  bbox : Rectangle
  score : Rat
  label : String
deriving DecidableEq, Repr

/-- Mirrors `formatDetections`: one detection per circle, in order, with
bounding box corners `center ± (radius, radius)`, confidence `1` and label
`"circle-<i>"` for the 0-based index `i`. -/
def formatDetections (circles : List Circle) : List Detection :=
  circles.enum.map fun ic =>
    ⟨⟨⟨ic.2.center.x - ic.2.radius, ic.2.center.y - ic.2.radius⟩,
      ⟨ic.2.center.x + ic.2.radius, ic.2.center.y + ic.2.radius⟩⟩,
      1, "circle-" ++ toString ic.1⟩

/-- A Go `interface\x7b\x7d` value as it appears in the `extra` map of the
service methods: only the shapes relevant to the type assertions in the
source are distinguished. -/
inductive GoValue where
  | bool (b : Bool)
  | int (i : Int)
  | str (s : String)
  | float (q : Rat)
deriving DecidableEq, Repr

/-- A Go `map[string]interface\x7b\x7d` (keys unique; a `nil` map is the
empty list). -/
abbrev ExtraMap : Type := List (String × GoValue)

/-- The type assertion `v.(bool)`: succeeds exactly on a present value of
boolean type. -/
def asBool : Option GoValue → Option Bool
  | some (.bool b) => some b
  | _ => none

/-- Mirrors the success path of the service `Detections` method: map
`formatDetections` over the circles `vesselCircles` returns. -/
def runPipeline (raw : List RawCircle) (hc : HoughConfig)
    (outputBlur : Bool) (outputResults : String) (fs : DiagnosticFS) :
    Except String (List Detection) :=
  Except.map formatDetections (vesselCircles raw hc outputBlur outputResults fs)

/-- Embeds the service `Detections` method: the `addOffset` entry of the
`extra` map must be present with a boolean value, otherwise the method
errors out before any detection; on success the pipeline runs (the
service calls `vesselCircles` with no diagnostic outputs). -/
def Detections (extra : ExtraMap) (raw : List RawCircle) (hc : HoughConfig)
    (fs : DiagnosticFS) : Except String (List Detection) :=
  match asBool (extra.lookup "addOffset") with
  | none => .error "we do not know if we should add an offset to the detections, please specify"
  | some _addOffset => runPipeline raw hc false "" fs

/-- A caller-supplied image value (Go `image.Image`): dimensions plus a
flat pixel buffer. -/
structure Image where
  width : Nat
  height : Nat
  pix : List Nat
deriving DecidableEq, Repr

/-- One entry of the tuple slice returned by `camera.Images`: a named
source plus its image. -/
structure NamedImage where
  sourceName : String
  image : Image
deriving DecidableEq, Repr

/-- Embeds the service `getImage` helper: forward any camera error;
otherwise scan the supplied images, keeping the last one whose source
name is `"color"`; the possibly-nil result is returned with a nil
error. -/
def getImage (camResult : Except String (List NamedImage)) :
    Except String (Option Image) :=
  match camResult with
  | .error e => .error e
  | .ok images =>
    .ok (images.foldl (fun acc ni => if ni.sourceName = "color" then some ni.image else acc) none)

/-- Embeds `DetectionsFromCamera`: fetch the colour image via `getImage`,
then hand whatever it produced (possibly nil) to the `Detections` call
with `addOffset: true`, abstracted here as `detect`. -/
def DetectionsFromCamera (camResult : Except String (List NamedImage))
    (detect : Option Image → Except String (List Detection)) :
    Except String (List Detection) :=
  match getImage camResult with
  | .error e => .error e
  | .ok colorImg => detect colorImg

/-- A store of mutable byte buffers, modelling the Go heap as far as the
pipeline's image buffers are concerned: buffer ids below `next` are
allocated. -/
structure Heap where
  next : Nat
  data : Nat → List Nat

/-- Allocate a fresh zeroed buffer (Go `image.NewRGBA` /
`gocv.NewMatWithSize`), returning the new heap and the fresh id. -/
def Heap.alloc (h : Heap) (size : Nat) : Heap × Nat :=
  (⟨h.next + 1, fun i => if i = h.next then List.replicate size 0 else h.data i⟩, h.next)

/-- Write one byte of one buffer (a pixel-channel store such as
`mat.SetUCharAt` or a `draw.Draw` destination write). -/
def Heap.setCell (h : Heap) (id idx v : Nat) : Heap :=
  ⟨h.next, fun i => if i = id then (h.data i).set idx v else h.data i⟩

/-- The pixel coordinates of a `w × ht` buffer, as scanned by the nested
loops of the source. -/
def gridPoints (w ht : Nat) : List (Nat × Nat) :=
  (List.range ht).flatMap fun y => (List.range w).map fun x => (x, y)

/-- A crop rectangle as used by the heap-level `cropImage`: origin and
extent inside the source image. -/
structure CropRect where
  ox : Nat
  oy : Nat
  cw : Nat
  ch : Nat
deriving DecidableEq, Repr

/-- The `draw.Draw(croppedImg, bounds, src, crop.Min, draw.Src)` call of
`cropImage`: for each destination pixel, copy the four RGBA bytes of the
source pixel at the crop origin plus that point.  All writes target
`dstId`; the source buffer is only read. -/
def drawCropLoop (h : Heap) (dstId srcId srcW dstW ox oy : Nat)
    (pts : List (Nat × Nat)) : Heap :=
  pts.foldl (fun hh p =>
    let src := hh.data srcId
    let base := ((p.2 + oy) * srcW + (p.1 + ox)) * 4
    let dbase := (p.2 * dstW + p.1) * 4
    ((((hh.setCell dstId dbase (src.getD base 0)).setCell dstId (dbase + 1)
        (src.getD (base + 1) 0)).setCell dstId (dbase + 2)
        (src.getD (base + 2) 0)).setCell dstId (dbase + 3)
        (src.getD (base + 3) 0))) h

/-- Heap-level embedding of `cropImage`: with no crop the source buffer is
returned as is; otherwise a fresh RGBA buffer is allocated and the crop
rectangle is drawn into it from the source. -/
def cropImageH (h : Heap) (srcId srcW : Nat) (crop : Option CropRect) : Heap × Nat :=
  match crop with
  | none => (h, srcId)
  | some c =>
    let hd := h.alloc (c.cw * c.ch * 4)
    (drawCropLoop hd.1 hd.2 srcId srcW c.cw c.ox c.oy (gridPoints c.cw c.ch), hd.2)

/-- The pixel loop of `imageToMat`: write the three BGR bytes of the mat
row from the RGBA bytes read out of the image buffer (Go shifts the
16-bit colour values right by 8, recovering the stored bytes).  All
writes target `matId`; the image buffer is only read. -/
def imageToMatLoop (h : Heap) (matId imgId imgW w : Nat)
    (pts : List (Nat × Nat)) : Heap :=
  pts.foldl (fun hh p =>
    let img := hh.data imgId
    let base := (p.2 * imgW + p.1) * 4
    let mbase := p.2 * (w * 3) + p.1 * 3
    (((hh.setCell matId mbase (img.getD (base + 2) 0)).setCell matId (mbase + 1)
        (img.getD (base + 1) 0)).setCell matId (mbase + 2)
        (img.getD base 0))) h

/-- Heap-level embedding of `imageToMat`: allocate a fresh `CV8UC3` mat of
the image's dimensions and fill it pixel by pixel from the image. -/
def imageToMatH (h : Heap) (imgId imgW w ht : Nat) : Heap × Nat :=
  let hm := h.alloc (w * ht * 3)
  (imageToMatLoop hm.1 hm.2 imgId imgW w (gridPoints w ht), hm.2)

/-- The two opening statements of `vesselCircles`
(`croppedImg := cropImage(img, hc.Crop); mat := imageToMat(croppedImg)`),
the only parts of the pipeline that touch the caller's image buffer: the
remaining stages operate on the freshly created mat through gocv. -/
def vesselCirclesPrep (h : Heap) (imgId imgW imgH : Nat)
    (crop : Option CropRect) : Heap × Nat :=
  let hc := cropImageH h imgId imgW crop
  match crop with
  | none => imageToMatH hc.1 hc.2 imgW imgW imgH
  | some c => imageToMatH hc.1 hc.2 c.cw c.cw c.ch

/-! Shared configurations used by the concrete evaluations below. -/

/-- The default parameter set (`setDefaults`), no crop, blur enabled. -/
def cfgBase : HoughConfig := ⟨"cam", 1, 8, 60, 25, 35, 50, none, false⟩

/-- The parameter set of the repository's test (`TestHough1`): defaults
with `minDist = minRadius`, the `(115, 0)-(600, 440)` crop and the blur
skipped. -/
def cfgCropped : HoughConfig :=
  ⟨"cam", 1, 35, 60, 25, 35, 50, some ⟨⟨115, 0⟩, ⟨600, 440⟩⟩, true⟩

/-! Helper lemmas about the pipeline. -/

/-- A raw candidate that the loop keeps yields a circle carrying the raw
radius, which is at least the threshold. -/
theorem keepCircle_radius {crop : Option Rectangle} {a : RawCircle} {c : Circle}
    (h : keepCircle crop a = some c) :
    c.radius = a.r ∧ circleRThreshold ≤ a.r := by
  unfold keepCircle at h
  split at h
  · exact absurd h (by simp)
  · rename_i hlt
    refine ⟨?_, le_of_not_lt hlt⟩
    cases crop with
    | some cr => cases h; rfl
    | none => cases h; rfl

/-- Every circle surviving the candidate loop has radius at least the
threshold. -/
theorem mem_goodCirclesOf_radius {raw : List RawCircle} {crop : Option Rectangle}
    {c : Circle} (hm : c ∈ goodCirclesOf raw crop) : circleRThreshold ≤ c.radius := by
  simp only [goodCirclesOf, List.mem_filterMap] at hm
  obtain ⟨a, -, ha⟩ := hm
  obtain ⟨hr, hge⟩ := keepCircle_radius ha
  omega

/-- When `vesselCircles` succeeds, the returned list is exactly the
ordered filtered candidates. -/
theorem vesselCircles_ok {raw : List RawCircle} {hc : HoughConfig} {ob : Bool}
    {ors : String} {fs : DiagnosticFS} {circles : List Circle}
    (h : vesselCircles raw hc ob ors fs = Except.ok circles) :
    circles = orderCircles (goodCirclesOf raw hc.crop) := by
  unfold vesselCircles at h
  split_ifs at h
  cases h
  rfl

/-- Membership in the ordered list is membership in the unordered one. -/
theorem mem_orderCircles {c : Circle} {l : List Circle} :
    c ∈ orderCircles l ↔ c ∈ l := by
  unfold orderCircles
  exact List.mem_insertionSort circleGE

/-- C1 counterexample: a configuration with `min_radius = 50 >
max_radius = 10` (all other constraints satisfied) passes `Validate`,
which returns the dependency list instead of an error — the claimed
`min_radius > max_radius` rejection does not exist in the code. -/
theorem validate_min_gt_max_passes :
    (50 : Int) > 10 ∧
    HoughConfig.Validate ⟨"cam", 1, 1, 1, 1, 50, 10, none, false⟩ "p" = .ok ["cam"] :=
  ⟨by decide, rfl⟩

/-- C1 (amended): `Validate` returns an error whenever the camera name is
empty or one of the six numeric parameters is non-positive, and succeeds
with the camera name as the dependency list whenever the name is nonempty
and all six numeric parameters are positive — with no `min_radius ≤
max_radius` requirement. -/
theorem validate_checks_amended (cfg : HoughConfig) (path : String) :
    (cfg.cameraName = "" ∨ cfg.dp ≤ 0 ∨ cfg.minDist ≤ 0 ∨ cfg.param1 ≤ 0 ∨
      cfg.param2 ≤ 0 ∨ cfg.minRadius ≤ 0 ∨ cfg.maxRadius ≤ 0 →
      ∃ e, cfg.Validate path = .error e) ∧
    (cfg.cameraName ≠ "" → 0 < cfg.dp → 0 < cfg.minDist → 0 < cfg.param1 →
      0 < cfg.param2 → 0 < cfg.minRadius → 0 < cfg.maxRadius →
      cfg.Validate path = .ok [cfg.cameraName]) := by
  unfold HoughConfig.Validate
  constructor
  · intro hbad
    split_ifs with h1 h2 h3 h4 h5 h6 h7
    · exact ⟨_, rfl⟩
    · exact ⟨_, rfl⟩
    · exact ⟨_, rfl⟩
    · exact ⟨_, rfl⟩
    · exact ⟨_, rfl⟩
    · exact ⟨_, rfl⟩
    · exact ⟨_, rfl⟩
    · tauto
  · intro h1 h2 h3 h4 h5 h6 h7
    split_ifs with g1 g2 g3 g4 g5 g6 g7
    · exact absurd g1 h1
    · exact absurd g2 (not_le.mpr h2)
    · exact absurd g3 (not_le.mpr h3)
    · exact absurd g4 (not_le.mpr h4)
    · exact absurd g5 (not_le.mpr h5)
    · exact absurd g6 (not_le.mpr h6)
    · exact absurd g7 (not_le.mpr h7)
    · rfl

/-- C1 witness: the amended theorem applied to a concrete valid
configuration. -/
theorem validate_checks_amended_witness :
    HoughConfig.Validate cfgBase "p" = .ok ["cam"] :=
  (validate_checks_amended cfgBase "p").2 (by decide) (by decide) (by decide)
    (by decide) (by decide) (by decide) (by decide)

/-- C2: every circle a successful `vesselCircles` call returns has radius
at least `circleRThreshold = 18`; and at the boundary a raw candidate of
radius 17 is discarded while radii 18 and 19 are retained. -/
theorem radius_floor :
    (∀ (raw : List RawCircle) (hc : HoughConfig) (ob : Bool) (ors : String)
      (fs : DiagnosticFS) (circles : List Circle),
      vesselCircles raw hc ob ors fs = Except.ok circles →
      ∀ c ∈ circles, circleRThreshold ≤ c.radius) ∧
    vesselCircles [⟨40, 50, 17⟩] cfgBase false "" ⟨true, true⟩ = .ok [] ∧
    vesselCircles [⟨40, 50, 18⟩] cfgBase false "" ⟨true, true⟩ = .ok [⟨⟨40, 50⟩, 18⟩] ∧
    vesselCircles [⟨40, 50, 19⟩] cfgBase false "" ⟨true, true⟩ = .ok [⟨⟨40, 50⟩, 19⟩] := by
  refine ⟨?_, rfl, rfl, rfl⟩
  intro raw hc ob ors fs circles h c hm
  rw [vesselCircles_ok h, mem_orderCircles] at hm
  exact mem_goodCirclesOf_radius hm

/-- C2 witness: the radius-floor theorem applied to a concrete run. -/
theorem radius_floor_witness :
    circleRThreshold ≤ (Circle.mk ⟨40, 50⟩ 18).radius :=
  radius_floor.1 [⟨40, 50, 18⟩] cfgBase false "" ⟨true, true⟩ [⟨⟨40, 50⟩, 18⟩]
    rfl ⟨⟨40, 50⟩, 18⟩ (by simp)

/-- C3: the circle list a successful `vesselCircles` call returns is
pairwise non-increasing in radius (every earlier circle's radius is at
least every later circle's radius, in particular for adjacent
positions). -/
theorem circles_sorted_by_radius :
    ∀ (raw : List RawCircle) (hc : HoughConfig) (ob : Bool) (ors : String)
      (fs : DiagnosticFS) (circles : List Circle),
      vesselCircles raw hc ob ors fs = Except.ok circles →
      List.Pairwise circleGE circles := by
  intro raw hc ob ors fs circles h
  rw [vesselCircles_ok h]
  exact List.sorted_insertionSort circleGE (goodCirclesOf raw hc.crop)

/-- C3 witness: the ordering theorem applied to a concrete run whose raw
candidates arrive in ascending radius order. -/
theorem circles_sorted_by_radius_witness :
    List.Pairwise circleGE [⟨⟨1, 1⟩, 30⟩, ⟨⟨0, 0⟩, 20⟩] :=
  circles_sorted_by_radius [⟨0, 0, 20⟩, ⟨1, 1, 30⟩] cfgBase false "" ⟨true, true⟩
    [⟨⟨1, 1⟩, 30⟩, ⟨⟨0, 0⟩, 20⟩] rfl

/-- Translation of a circle's centre by a point, as performed by
`center.Add(hc.Crop.Min)` in the candidate loop; the radius is not
touched. -/
def offsetCircle (p : Point) (c : Circle) : Circle :=
  ⟨⟨c.center.x + p.x, c.center.y + p.y⟩, c.radius⟩

/-- One loop iteration with a crop equals the iteration without a crop
followed by the centre translation. -/
theorem keepCircle_some (cr : Rectangle) (a : RawCircle) :
    keepCircle (some cr) a = (keepCircle none a).map (offsetCircle cr.min) := by
  unfold keepCircle
  split
  · rfl
  · rfl

/-- The candidate loop with a crop equals the loop without a crop
followed by the centre translation. -/
theorem goodCirclesOf_some (raw : List RawCircle) (cr : Rectangle) :
    goodCirclesOf raw (some cr) = (goodCirclesOf raw none).map (offsetCircle cr.min) := by
  unfold goodCirclesOf
  rw [List.map_filterMap]
  exact List.filterMap_congr fun a _ => keepCircle_some cr a

/-- Ordering by radius commutes with the centre translation, which keeps
every radius. -/
theorem orderCircles_map_offset (p : Point) (l : List Circle) :
    (orderCircles l).map (offsetCircle p) = orderCircles (l.map (offsetCircle p)) := by
  unfold orderCircles
  exact List.map_insertionSort circleGE circleGE (offsetCircle p) l fun a _ b _ => Iff.rfl

/-- C4: with a crop rectangle configured, `vesselCircles` returns exactly
the circles it would compute on the cropped buffer with each centre
translated by the crop origin and the radius unchanged; with no crop
configured, every returned circle carries a raw candidate's coordinates
unchanged. -/
theorem crop_offset_remap :
    (∀ (raw : List RawCircle) (hc : HoughConfig) (cr : Rectangle) (ob : Bool)
      (ors : String) (fs : DiagnosticFS), hc.crop = some cr →
      vesselCircles raw hc ob ors fs =
        Except.map (List.map (offsetCircle cr.min))
          (vesselCircles raw { hc with crop := none } ob ors fs)) ∧
    (∀ (raw : List RawCircle) (hc : HoughConfig) (ob : Bool) (ors : String)
      (fs : DiagnosticFS) (circles : List Circle), hc.crop = none →
      vesselCircles raw hc ob ors fs = Except.ok circles →
      ∀ c ∈ circles, ∃ rc ∈ raw, c.center = ⟨rc.x, rc.y⟩ ∧ c.radius = rc.r) := by
  constructor
  · intro raw hc cr ob ors fs hcrop
    unfold vesselCircles
    split_ifs
    · rfl
    · rfl
    · rw [hcrop]
      show Except.ok _ = Except.ok _
      rw [goodCirclesOf_some, orderCircles_map_offset]
  · intro raw hc ob ors fs circles hcrop h c hm
    rw [vesselCircles_ok h, mem_orderCircles, hcrop] at hm
    simp only [goodCirclesOf, List.mem_filterMap] at hm
    obtain ⟨a, ha, hk⟩ := hm
    refine ⟨a, ha, ?_⟩
    unfold keepCircle at hk
    split at hk
    · exact absurd hk (by simp)
    · cases hk
      exact ⟨rfl, rfl⟩

/-- C4 witness: the remap theorem applied to the test configuration's
crop rectangle with origin `(115, 0)` and one concrete raw candidate. -/
theorem crop_offset_remap_witness :
    vesselCircles [⟨10, 20, 30⟩] cfgCropped false "" ⟨true, true⟩ =
      Except.map (List.map (offsetCircle (Point.mk 115 0)))
        (vesselCircles [⟨10, 20, 30⟩] { cfgCropped with crop := none } false "" ⟨true, true⟩) :=
  crop_offset_remap.1 [⟨10, 20, 30⟩] cfgCropped ⟨⟨115, 0⟩, ⟨600, 440⟩⟩ false ""
    ⟨true, true⟩ rfl

/-- C5: `formatDetections` produces one detection per circle in the same
order — the lists have equal length, and the detection at each position
`i` has bounding box corners `center ± (radius, radius)`, confidence `1`
and label `circle-i`. -/
theorem format_detections_boxes :
    ∀ circles : List Circle,
      (formatDetections circles).length = circles.length ∧
      ∀ i : Nat,
        (formatDetections circles)[i]? =
          (circles[i]?).map fun c =>
            ⟨⟨⟨c.center.x - c.radius, c.center.y - c.radius⟩,
              ⟨c.center.x + c.radius, c.center.y + c.radius⟩⟩,
              1, "circle-" ++ toString i⟩ := by
  intro circles
  constructor
  · simp [formatDetections]
  · intro i
    cases h : circles[i]? with
    | none =>
      simp only [formatDetections, List.getElem?_map, List.getElem?_enum, h]
      rfl
    | some c =>
      simp only [formatDetections, List.getElem?_map, List.getElem?_enum, h]
      rfl

/-- C6 counterexample: with an annotated-output path configured and the
write failing, `vesselCircles` returns an error — the surviving circle is
not returned — while the identical run without the diagnostic request
returns it. -/
theorem diagnostic_failure_returns_error :
    vesselCircles [⟨100, 100, 30⟩] cfgBase false "output.jpg" ⟨true, false⟩ =
      .error "failed to save the output image" ∧
    vesselCircles [⟨100, 100, 30⟩] cfgBase false "" ⟨true, false⟩ =
      .ok [⟨⟨100, 100⟩, 30⟩] :=
  ⟨rfl, rfl⟩

/-- C6 (amended): whenever a diagnostic artifact write is attempted and
fails — the blurred intermediate (blur not skipped, `outputBlur` set,
write failing) or the annotated output (nonempty path, write failing) —
`vesselCircles` fails the whole call with an error instead of returning
the computed circles. -/
theorem diagnostic_failure_amended :
    ∀ (raw : List RawCircle) (hc : HoughConfig) (ob : Bool) (ors : String)
      (fs : DiagnosticFS),
      (hc.skipBlur = false ∧ ob = true ∧ fs.blurWriteOk = false) ∨
        (ors ≠ "" ∧ fs.resultsWriteOk = false) →
      vesselCircles raw hc ob ors fs = .error "failed to save the output image" := by
  intro raw hc ob ors fs h
  unfold vesselCircles
  split_ifs with h1 h2
  · rfl
  · rfl
  · rcases h with h | h
    · exact absurd h h1
    · exact absurd h h2

/-- C6 witness: the amended theorem applied to a concrete failing
blurred-image write. -/
theorem diagnostic_failure_amended_witness :
    vesselCircles [] cfgBase true "" ⟨false, true⟩ =
      .error "failed to save the output image" :=
  diagnostic_failure_amended [] cfgBase true "" ⟨false, true⟩ (Or.inl ⟨rfl, rfl, rfl⟩)

/-- The image-selection fold of `getImage` never leaves its accumulator
when no supplied image is named `"color"`. -/
theorem foldl_color_none :
    ∀ (images : List NamedImage) (acc : Option Image),
      (∀ ni ∈ images, ni.sourceName ≠ "color") →
      images.foldl
        (fun acc ni => if ni.sourceName = "color" then some ni.image else acc) acc = acc := by
  intro images
  induction images with
  | nil => intro acc _; rfl
  | cons x xs ih =>
    intro acc h
    rw [List.foldl_cons, if_neg (h x (by simp))]
    exact ih acc fun ni hni => h ni (by simp [hni])

/-- A camera image set with no `"color"` source, and a detection stub
standing for the downstream `Detections` call. -/
def depthOnlyImages : List NamedImage := [⟨"depth", ⟨2, 2, [7, 7, 7, 7]⟩⟩]

/-- Stands for the downstream `Detections` call in the counterexample:
whatever image (possibly nil) arrives, report success. -/
def detStub : Option Image → Except String (List Detection) := fun _ => .ok []

/-- C7 counterexample: with a camera supplying only a `"depth"` image,
`getImage` returns a nil image with a nil error, and
`DetectionsFromCamera` proceeds into the detection call and returns its
(successful) result instead of failing with an image-unavailable
error. -/
theorem missing_color_no_error :
    getImage (.ok depthOnlyImages) = .ok none ∧
    DetectionsFromCamera (.ok depthOnlyImages) detStub = .ok [] :=
  ⟨rfl, rfl⟩

/-- C7 (amended): when no supplied image has source name `"color"`,
`getImage` succeeds with a nil image rather than erroring, and
`DetectionsFromCamera` hands that nil image to the detection call instead
of failing. -/
theorem missing_color_proceeds :
    ∀ (images : List NamedImage) (detect : Option Image → Except String (List Detection)),
      (∀ ni ∈ images, ni.sourceName ≠ "color") →
      getImage (.ok images) = .ok none ∧
      DetectionsFromCamera (.ok images) detect = detect none := by
  intro images detect h
  have hg : getImage (.ok images) = .ok none := by
    simp only [getImage]
    rw [foldl_color_none images none h]
  refine ⟨hg, ?_⟩
  simp only [DetectionsFromCamera, hg]

/-- C7 witness: the amended theorem applied to the concrete depth-only
image set. -/
theorem missing_color_proceeds_witness :
    getImage (.ok depthOnlyImages) = .ok none ∧
    DetectionsFromCamera (.ok depthOnlyImages) detStub = detStub none :=
  missing_color_proceeds depthOnlyImages detStub (by decide)

/-- C8: the detection pipeline (circles plus formatting) is
deterministic — two invocations with equal raw candidates, equal
parameters, equal diagnostic requests and equal file-system outcomes
produce equal detection sequences. -/
theorem pipeline_deterministic :
    ∀ (raw1 raw2 : List RawCircle) (hc1 hc2 : HoughConfig) (ob1 ob2 : Bool)
      (ors1 ors2 : String) (fs1 fs2 : DiagnosticFS),
      raw1 = raw2 → hc1 = hc2 → ob1 = ob2 → ors1 = ors2 → fs1 = fs2 →
      runPipeline raw1 hc1 ob1 ors1 fs1 = runPipeline raw2 hc2 ob2 ors2 fs2 := by
  intro raw1 raw2 hc1 hc2 ob1 ob2 ors1 ors2 fs1 fs2 h1 h2 h3 h4 h5
  rw [h1, h2, h3, h4, h5]

/-- C8 witness: the determinism theorem applied to two identical concrete
invocations. -/
theorem pipeline_deterministic_witness :
    runPipeline [⟨3, 4, 20⟩] cfgBase false "" ⟨true, true⟩ =
      runPipeline [⟨3, 4, 20⟩] cfgBase false "" ⟨true, true⟩ :=
  pipeline_deterministic [⟨3, 4, 20⟩] [⟨3, 4, 20⟩] cfgBase cfgBase false false
    "" "" ⟨true, true⟩ ⟨true, true⟩ rfl rfl rfl rfl rfl

/-! Frame lemmas for the heap model. -/

/-- A single-cell write leaves every other buffer untouched. -/
theorem setCell_data_ne (h : Heap) (id idx v j : Nat) (hj : j ≠ id) :
    (h.setCell id idx v).data j = h.data j := by
  simp [Heap.setCell, hj]

/-- A single-cell write does not allocate. -/
theorem setCell_next (h : Heap) (id idx v : Nat) :
    (h.setCell id idx v).next = h.next := rfl

/-- Allocation leaves every already-allocated buffer untouched. -/
theorem alloc_data_ne (h : Heap) (size j : Nat) (hj : j ≠ h.next) :
    (h.alloc size).1.data j = h.data j := by
  simp [Heap.alloc, hj]

/-- Allocation returns the previous high-water mark as the fresh id. -/
theorem alloc_snd (h : Heap) (size : Nat) : (h.alloc size).2 = h.next := rfl

/-- Allocation bumps the high-water mark by one. -/
theorem alloc_next (h : Heap) (size : Nat) : (h.alloc size).1.next = h.next + 1 := rfl

/-- A fold of per-element steps that each write only into buffer `id`
leaves every other buffer untouched. -/
theorem foldl_data_ne {α : Type} (f : Heap → α → Heap) (id : Nat)
    (hf : ∀ (hh : Heap) (a : α) (j : Nat), j ≠ id → (f hh a).data j = hh.data j) :
    ∀ (l : List α) (h : Heap) (j : Nat), j ≠ id →
      (l.foldl f h).data j = h.data j := by
  intro l
  induction l with
  | nil => intro h j _; rfl
  | cons a as ih =>
    intro h j hj
    rw [List.foldl_cons, ih (f h a) j hj, hf h a j hj]

/-- A fold of per-element steps that never allocate never allocates. -/
theorem foldl_next_eq {α : Type} (f : Heap → α → Heap)
    (hf : ∀ (hh : Heap) (a : α), (f hh a).next = hh.next) :
    ∀ (l : List α) (h : Heap), (l.foldl f h).next = h.next := by
  intro l
  induction l with
  | nil => intro h; rfl
  | cons a as ih => intro h; rw [List.foldl_cons, ih (f h a), hf h a]

/-- The crop draw loop writes only into the destination buffer. -/
theorem drawCropLoop_data_ne (h : Heap) (dstId srcId srcW dstW ox oy : Nat)
    (pts : List (Nat × Nat)) (j : Nat) (hj : j ≠ dstId) :
    (drawCropLoop h dstId srcId srcW dstW ox oy pts).data j = h.data j := by
  refine foldl_data_ne _ dstId ?_ pts h j hj
  intro hh a k hk
  simp [Heap.setCell, hk]

/-- The crop draw loop does not allocate. -/
theorem drawCropLoop_next (h : Heap) (dstId srcId srcW dstW ox oy : Nat)
    (pts : List (Nat × Nat)) :
    (drawCropLoop h dstId srcId srcW dstW ox oy pts).next = h.next := by
  refine foldl_next_eq _ ?_ pts h
  intro hh a
  rfl

/-- The mat fill loop writes only into the mat buffer. -/
theorem imageToMatLoop_data_ne (h : Heap) (matId imgId imgW w : Nat)
    (pts : List (Nat × Nat)) (j : Nat) (hj : j ≠ matId) :
    (imageToMatLoop h matId imgId imgW w pts).data j = h.data j := by
  refine foldl_data_ne _ matId ?_ pts h j hj
  intro hh a k hk
  simp [Heap.setCell, hk]

/-- `imageToMatH` writes only into the freshly allocated mat: every
already-allocated buffer is unchanged. -/
theorem imageToMatH_data_lt (h : Heap) (imgId imgW w ht j : Nat) (hj : j < h.next) :
    (imageToMatH h imgId imgW w ht).1.data j = h.data j := by
  unfold imageToMatH
  rw [imageToMatLoop_data_ne _ _ _ _ _ _ j (by rw [alloc_snd]; omega)]
  exact alloc_data_ne h _ j (by omega)

/-- C9: the pipeline's image preparation — `cropImage` followed by
`imageToMat`, the only stages touching the caller's image buffer — leaves
every byte of the caller's buffer unchanged, and when a crop is
configured the cropped pixels go into a newly allocated buffer distinct
from the caller's. -/
theorem caller_image_unchanged :
    ∀ (h : Heap) (imgId imgW imgH : Nat) (crop : Option CropRect),
      imgId < h.next →
      (vesselCirclesPrep h imgId imgW imgH crop).1.data imgId = h.data imgId ∧
      (∀ c : CropRect, crop = some c → (cropImageH h imgId imgW crop).2 ≠ imgId) := by
  intro h imgId imgW imgH crop hlt
  cases crop with
  | none =>
    refine ⟨?_, fun c hc => by cases hc⟩
    unfold vesselCirclesPrep cropImageH
    exact imageToMatH_data_lt h imgId imgW imgW imgH imgId hlt
  | some c =>
    constructor
    · unfold vesselCirclesPrep cropImageH
      have hnext :
          (drawCropLoop (h.alloc (c.cw * c.ch * 4)).1 (h.alloc (c.cw * c.ch * 4)).2
            imgId imgW c.cw c.ox c.oy (gridPoints c.cw c.ch)).next = h.next + 1 := by
        rw [drawCropLoop_next]
        rfl
      rw [imageToMatH_data_lt _ _ _ _ _ imgId (by rw [hnext]; omega)]
      rw [drawCropLoop_data_ne _ _ _ _ _ _ _ _ imgId (by rw [alloc_snd]; omega)]
      exact alloc_data_ne h _ imgId (by omega)
    · intro c2 _
      show h.next ≠ imgId
      omega

/-- Concrete one-pixel heap for the C9 witness: one allocated buffer,
id 0. -/
def heap0 : Heap := ⟨1, fun _ => [5, 6, 7, 8]⟩

/-- C9 witness: the frame theorem applied to the concrete heap — the
caller's buffer still holds its original bytes after the preparation ran
with a crop. -/
theorem caller_image_unchanged_witness :
    (vesselCirclesPrep heap0 0 1 1 (some ⟨0, 0, 1, 1⟩)).1.data 0 = [5, 6, 7, 8] :=
  (caller_image_unchanged heap0 0 1 1 (some ⟨0, 0, 1, 1⟩) (by decide)).1

/-- C10: whenever the `extra` map (a nil or empty map included) holds no
boolean under the key `addOffset`, the `Detections` method returns the
fixed error and performs no detection — the result does not depend on the
raw candidates, the configuration or the file-system outcomes. -/
theorem addOffset_flag_required :
    ∀ (extra : ExtraMap) (raw raw2 : List RawCircle) (hc hc2 : HoughConfig)
      (fs fs2 : DiagnosticFS),
      asBool (extra.lookup "addOffset") = none →
      Detections extra raw hc fs =
        .error "we do not know if we should add an offset to the detections, please specify" ∧
      Detections extra raw hc fs = Detections extra raw2 hc2 fs2 := by
  intro extra raw raw2 hc hc2 fs fs2 h
  constructor
  · simp only [Detections, h]
  · simp only [Detections, h]

/-- C10 witness: the theorem applied to a concrete map carrying a string
under `addOffset`, alongside the empty (nil) map. -/
theorem addOffset_flag_required_witness :
    Detections [("addOffset", GoValue.str "yes")] [] cfgBase ⟨true, true⟩ =
      .error "we do not know if we should add an offset to the detections, please specify" ∧
    Detections [] [⟨1, 2, 40⟩] cfgBase ⟨true, true⟩ =
      .error "we do not know if we should add an offset to the detections, please specify" :=
  ⟨(addOffset_flag_required [("addOffset", GoValue.str "yes")] [] [] cfgBase cfgBase
      ⟨true, true⟩ ⟨true, true⟩ rfl).1,
    (addOffset_flag_required [] [⟨1, 2, 40⟩] [] cfgBase cfgBase
      ⟨true, true⟩ ⟨true, true⟩ rfl).1⟩

end Hough
